import Mathlib

/-!
Shallow embedding of the request-forwarding pipeline of the Binance HTTP
reverse proxy (`main.go`).  Go strings are modelled as `List Char`; the
`http.Header` / `url.Values` multimaps as association lists from key to an
ordered list of values; the gin response-writer header map as an association
list from key to a single value.  The gzip library, the HTTP transport
client and the JSON-validity probe (`json.Unmarshal` succeeding) are
external collaborators of the pipeline and are supplied as oracle
functions in a `Transport` record; everything else is translated directly
from the source.
-/

namespace BinanceProxy

/-- Go strings, modelled as character lists. -/
abbrev Str := List Char

/-- Characters are lowered with the ASCII mapping; HTTP header names and the
literal keys compared by the proxy are ASCII tokens, so this models Go's
`strings.ToLower` on every input the pipeline compares. -/
def goToLower (s : Str) : Str := s.map Char.toLower

/-- Case-insensitive equality of header keys, as produced by the source's
`strings.ToLower(key) == "..."` comparisons and by `textproto`'s canonical
header keys. -/
def strEqFold (a b : Str) : Bool := goToLower a == goToLower b

/-- Go `strings.HasPrefix`. -/
def goStartsWith (s pre : Str) : Bool := List.isPrefixOf pre s

/-- Go `strings.TrimPrefix`: drop `pre` from the front of `s` when present. -/
def goTrimLead (s pre : Str) : Str :=
  if goStartsWith s pre then s.drop pre.length else s

/-- Go `unicode.IsSpace` (the white space characters recognised by
`strings.TrimSpace`). -/
def goIsSpace (c : Char) : Bool :=
  let n := c.toNat
  (9 ≤ n && n ≤ 13) || n == 32 || n == 0x85 || n == 0xA0 || n == 0x1680 ||
  (0x2000 ≤ n && n ≤ 0x200A) || n == 0x2028 || n == 0x2029 || n == 0x202F ||
  n == 0x205F || n == 0x3000

/-- Go `strings.TrimSpace`. -/
def goTrimSpace (s : Str) : Str :=
  ((s.dropWhile goIsSpace).reverse.dropWhile goIsSpace).reverse

/-- Go `strings.Split` with a one-character separator. -/
def goSplit (s : Str) (sep : Char) : List Str := s.splitOn sep

/-- Lower-case hexadecimal digit, as emitted by `encoding/json`. -/
def hexDigit (n : Nat) : Char :=
  if n < 10 then Char.ofNat (48 + n) else Char.ofNat (87 + n)

/-- Escaping of one character by `encoding/json`'s string encoder (HTML
escaping enabled, as under a plain `json.Marshal`). -/
def jsonEscapeChar (c : Char) : Str :=
  if c == Char.ofNat 34 then [Char.ofNat 92, Char.ofNat 34]
  else if c == Char.ofNat 92 then [Char.ofNat 92, Char.ofNat 92]
  else if c == Char.ofNat 60 then [Char.ofNat 92, Char.ofNat 117, Char.ofNat 48, Char.ofNat 48, Char.ofNat 51, Char.ofNat 99]
  else if c == Char.ofNat 62 then [Char.ofNat 92, Char.ofNat 117, Char.ofNat 48, Char.ofNat 48, Char.ofNat 51, Char.ofNat 101]
  else if c == Char.ofNat 38 then [Char.ofNat 92, Char.ofNat 117, Char.ofNat 48, Char.ofNat 48, Char.ofNat 50, Char.ofNat 54]
  else if c == Char.ofNat 10 then [Char.ofNat 92, Char.ofNat 110]
  else if c == Char.ofNat 13 then [Char.ofNat 92, Char.ofNat 114]
  else if c == Char.ofNat 9 then [Char.ofNat 92, Char.ofNat 116]
  else if c.toNat < 32 then
    [Char.ofNat 92, Char.ofNat 117, Char.ofNat 48, Char.ofNat 48,
     hexDigit (c.toNat / 16), hexDigit (c.toNat % 16)]
  else if c.toNat == 0x2028 then [Char.ofNat 92, Char.ofNat 117, Char.ofNat 50, Char.ofNat 48, Char.ofNat 50, Char.ofNat 56]
  else if c.toNat == 0x2029 then [Char.ofNat 92, Char.ofNat 117, Char.ofNat 50, Char.ofNat 48, Char.ofNat 50, Char.ofNat 57]
  else [c]

/-- JSON encoding of one Go string (the quoted, escaped form). -/
def jsonQuote (s : Str) : Str :=
  Char.ofNat 34 :: (s.map jsonEscapeChar).flatten ++ [Char.ofNat 34]

/-- Go `json.Marshal` applied to a `[]string`, which never fails: the
compact JSON array of the quoted elements. -/
def jsonMarshalStrings (xs : List Str) : Str :=
  Char.ofNat 91 :: List.intercalate [Char.ofNat 44] (xs.map jsonQuote) ++ [Char.ofNat 93]

/-- Decimal rendering of a byte count, as by `fmt.Sprintf` with a length. -/
def natToStr (n : Nat) : Str := (Nat.repr n).data

/-- A `url.Values` / `http.Header` style multimap: key to ordered values. -/
abbrev ValuesMap := List (Str × List Str)

/-- Exact-key lookup in a `url.Values` map (`queryParams["symbols"]`). -/
def vFind (q : ValuesMap) (k : Str) : Option (List Str) :=
  (q.find? (fun p => p.1 == k)).map Prod.snd

/-- `url.Values.Set`: the key now maps to exactly the one given value. -/
def vSet (q : ValuesMap) (k : Str) (v : Str) : ValuesMap :=
  q.filter (fun p => !(p.1 == k)) ++ [(k, [v])]

/-- `http.Header.Get`: first value under the (case-insensitively matched)
key, or the empty string. -/
def hGet (m : ValuesMap) (k : Str) : Str :=
  match m.find? (fun p => strEqFold p.1 k) with
  | some p => p.2.headD []
  | none => []

/-- `http.Header.Set`: the key now maps to exactly the one given value. -/
def hSet (m : ValuesMap) (k : Str) (v : Str) : ValuesMap :=
  m.filter (fun p => !(strEqFold p.1 k)) ++ [(k, [v])]

/-- `http.Header.Add`: append one more value under the key. -/
def hAdd (m : ValuesMap) (k : Str) (v : Str) : ValuesMap :=
  if m.any (fun p => strEqFold p.1 k) then
    m.map (fun p => if strEqFold p.1 k then (p.1, p.2 ++ [v]) else p)
  else m ++ [(k, [v])]

/-- The gin response-writer header map: one value per key. -/
abbrev WriterMap := List (Str × Str)

/-- Lookup in the writer header map (`c.Writer.Header().Get`). -/
def wGet (w : WriterMap) (k : Str) : Str :=
  match w.find? (fun p => strEqFold p.1 k) with
  | some p => p.2
  | none => []

/-- Delete from the writer header map (`Header().Del`). -/
def wDel (w : WriterMap) (k : Str) : WriterMap :=
  w.filter (fun p => !(strEqFold p.1 k))

/-- Set in the writer header map (`Header().Set`). -/
def wSet (w : WriterMap) (k : Str) (v : Str) : WriterMap :=
  wDel w k ++ [(k, v)]

/-- gin's `c.Header(key, value)`: an empty value deletes the key, any other
value sets it. -/
def cHeader (w : WriterMap) (k : Str) (v : Str) : WriterMap :=
  if v == [] then wDel w k else wSet w k v

/-- The inbound request as seen by the handler (`c.Request`): method, URL
path, parsed query multimap, header multimap and body bytes. -/
structure InboundRequest where
  method : Str
  path : Str
  query : ValuesMap
  headers : ValuesMap
  body : List Nat
  deriving DecidableEq

/-- The outbound request built for the upstream.  The target URL of the
source is kept as its components: the base-plus-path part and the query
multimap that `url.Values.Encode` serialises onto it. -/
structure OutboundRequest where
  method : Str
  url : Str
  query : ValuesMap
  headers : ValuesMap
  body : List Nat
  deriving DecidableEq

/-- A fully read upstream response: status, header multimap, body bytes. -/
structure UpstreamResponse where
  status : Nat
  headers : ValuesMap
  body : List Nat
  deriving DecidableEq

/-- Result of one outbound round trip: either a response whose body was
read in full, a `client.Do` failure, or an `io.ReadAll` failure on the
response body. -/
inductive UpstreamResult where
  | success (resp : UpstreamResponse)
  | transportError (errText : Str)
  | bodyReadError (errText : Str)
  deriving DecidableEq

/-- External collaborators of the pipeline: the HTTP client, the gzip
decompressor (`gzip.NewReader` + `io.ReadAll`, `none` on any failure) and
the probe for `json.Unmarshal` succeeding on a byte slice. -/
structure Transport where
  doRequest : OutboundRequest → UpstreamResult
  gunzip : List Nat → Option (List Nat)
  jsonValid : List Nat → Bool

/-- Body of the response written back to the caller: either relayed bytes
(`c.Data`) or a proxy-generated JSON error object with `code`, `msg` and
`message` fields (`c.JSON` of a `gin.H`). -/
inductive RespBody where
  | data (bytes : List Nat)
  | jsonError (code : Int) (msg : Str) (message : Str)
  deriving DecidableEq

/-- The response returned to the caller. -/
structure ProxiedResponse where
  status : Nat
  headers : WriterMap
  body : RespBody
  deriving DecidableEq

/-- Observable outcome of handling one request: the response, the list of
upstream requests issued, and whether gzip decompression was attempted. -/
structure Outcome where
  response : ProxiedResponse
  upstreamCalls : List OutboundRequest
  gunzipAttempted : Bool
  deriving DecidableEq

/-- The configured upstream base (`binanceAPIBaseURL`). -/
def binanceAPIBaseURL : Str := "https://api.binance.com/api/v3".data

/-- Removal of the `/api` version prefix when present (main.go lines
74-77). -/
def stripAPI (p : Str) : Str :=
  if goStartsWith p "/api".data then goTrimLead p "/api".data else p

/-- Guarantee of a leading slash (main.go lines 79-82). -/
def ensureSlash (q : Str) : Str :=
  if goStartsWith q "/".data then q else Char.ofNat 47 :: q

/-- Path normalization of `ProxyRequest` (main.go lines 71-82): strip a
leading `/api`, then guarantee a leading slash. -/
def normalizePath (p : Str) : Str := ensureSlash (stripAPI p)

/-- Query-parameter normalization of `ProxyRequest` (main.go lines 87-112):
when a `symbols` parameter is present with at least one value and its first
value does not start with `[`, split that first value on commas, trim each
element and `Set` the parameter to the JSON array encoding (which for a
`[]string` never fails). -/
def processQuery (q : ValuesMap) : ValuesMap :=
  match vFind q "symbols".data with
  | some (v :: _) =>
    if goStartsWith v "[".data then q
    else vSet q "symbols".data (jsonMarshalStrings ((goSplit v (Char.ofNat 44)).map goTrimSpace))
  | _ => q

/-- Request-direction header filtering (main.go lines 141-161): drop
`host`/`connection`/`keep-alive`, force `Accept-Encoding` to
`gzip, deflate` when the inbound request carried one, copy everything else
value by value, then synthesize a `User-Agent` when none survived. -/
def reqStep (acc : ValuesMap) (p : Str × List Str) : ValuesMap :=
  let kl := goToLower p.1
  if kl == "host".data || kl == "connection".data || kl == "keep-alive".data then acc
  else if kl == "accept-encoding".data then
    hSet acc "Accept-Encoding".data "gzip, deflate".data
  else p.2.foldl (fun a v => hAdd a p.1 v) acc

def buildOutboundHeaders (inH : ValuesMap) : ValuesMap :=
  let copied := inH.foldl reqStep []
  if hGet copied "User-Agent".data == [] then
    hSet copied "User-Agent".data "Binance-Proxy/1.0".data
  else copied

/-- Validity of an HTTP method token, the check `http.NewRequest` performs
on its method argument (`net/http.validMethod`). -/
def validMethod (m : Str) : Bool :=
  !m.isEmpty && m.all (fun c =>
    c.isAlpha || c.isDigit ||
    c == Char.ofNat 33 || c == Char.ofNat 35 || c == Char.ofNat 36 ||
    c == Char.ofNat 37 || c == Char.ofNat 38 || c == Char.ofNat 39 ||
    c == Char.ofNat 42 || c == Char.ofNat 43 || c == Char.ofNat 45 ||
    c == Char.ofNat 46 || c == Char.ofNat 94 || c == Char.ofNat 95 ||
    c == Char.ofNat 96 || c == Char.ofNat 124 || c == Char.ofNat 126)

/-- The outbound request assembled by `ProxyRequest` before dispatch. -/
def mkOutboundRequest (c : InboundRequest) : OutboundRequest :=
  { method := c.method
    url := binanceAPIBaseURL ++ normalizePath c.path
    query := processQuery c.query
    headers := buildOutboundHeaders c.headers
    body := c.body }

/-- A proxy-originated JSON error response (`c.JSON(status, gin.H)`), which
also sets the JSON content type on the writer. -/
def jsonErrorResponse (w : WriterMap) (status : Nat) (code : Int)
    (msg message : Str) : ProxiedResponse :=
  { status := status
    headers := wSet w "Content-Type".data "application/json; charset=utf-8".data
    body := RespBody.jsonError code msg message }

/-- Whether the response-direction copy loop skips a header key (main.go
lines 240-246): `content-encoding` and `content-length` are dropped exactly
when the upstream declared `gzip`. -/
def skippedKey (enc k : Str) : Bool :=
  (goToLower k == "content-encoding".data && enc == "gzip".data) ||
  (goToLower k == "content-length".data && enc == "gzip".data)

/-- Body of the response-direction header copy loop (main.go lines
237-250): a skipped key leaves the writer untouched, any other key has
each of its values written with `c.Header`. -/
def respStep (enc : Str) (w : WriterMap) (p : Str × List Str) : WriterMap :=
  if skippedKey enc p.1 then w
  else p.2.foldl (fun w v => cHeader w p.1 v) w

/-- Response-direction header copy (main.go lines 236-250): every value of
every non-skipped upstream header is written with `c.Header`. -/
def copyRespHeaders (w0 : WriterMap) (hs : ValuesMap) (enc : Str) : WriterMap :=
  hs.foldl (respStep enc) w0

/-- Relay of a fully read upstream response (main.go lines 191-281):
conditional gzip decompression, header copy, content-type inference, CORS
re-assertion, content-length fix-up, then status and body passthrough.
Returns the response paired with whether decompression was attempted. -/
def relayUpstream (t : Transport) (w0 : WriterMap) (resp : UpstreamResponse) :
    ProxiedResponse × Bool :=
  let enc := hGet resp.headers "Content-Encoding".data
  let bodyToSend :=
    if enc == "gzip".data then
      match t.gunzip resp.body with
      | some d => d
      | none => resp.body
    else resp.body
  let w1 := copyRespHeaders w0 resp.headers enc
  let ct0 := hGet resp.headers "Content-Type".data
  let ct :=
    if ct0 == [] then
      if bodyToSend.length > 0 then
        if t.jsonValid bodyToSend then "application/json".data
        else "text/plain; charset=utf-8".data
      else "application/json".data
    else ct0
  let w2 := wSet w1 "Content-Type".data ct
  let w3 := wSet (wSet (wSet w2
    "Access-Control-Allow-Origin".data "*".data)
    "Access-Control-Allow-Methods".data "GET, POST, PUT, DELETE, OPTIONS".data)
    "Access-Control-Allow-Headers".data "Content-Type, Authorization".data
  let w4 :=
    if enc == "gzip".data || wGet w3 "Content-Length".data == [] then
      wSet w3 "Content-Length".data (natToStr bodyToSend.length)
    else w3
  ({ status := resp.status, headers := w4, body := RespBody.data bodyToSend },
   enc == "gzip".data)

/-- The `ProxyRequest` handler (main.go lines 60-281), started with the
writer headers `w0` already produced by earlier middleware. -/
def proxyRequest (t : Transport) (w0 : WriterMap) (c : InboundRequest) : Outcome :=
  if c.method == "OPTIONS".data then
    let w := wSet (wSet (wSet (wSet w0
      "Access-Control-Allow-Origin".data "*".data)
      "Access-Control-Allow-Methods".data "GET, POST, PUT, DELETE, OPTIONS".data)
      "Access-Control-Allow-Headers".data "Content-Type, Authorization".data)
      "Access-Control-Max-Age".data "3600".data
    { response := { status := 200, headers := w, body := RespBody.data [] }
      upstreamCalls := []
      gunzipAttempted := false }
  else if !(validMethod c.method) then
    { response := jsonErrorResponse w0 500 (-1000)
        ("Erro ao criar requisição: net/http: invalid method".data)
        ("Erro ao criar requisição: net/http: invalid method".data)
      upstreamCalls := []
      gunzipAttempted := false }
  else
    let r := mkOutboundRequest c
    match t.doRequest r with
    | UpstreamResult.transportError e =>
      { response := jsonErrorResponse w0 502 (-1000)
          ("Erro ao conectar com Binance: ".data ++ e)
          ("Erro ao conectar com Binance: ".data ++ e)
        upstreamCalls := [r]
        gunzipAttempted := false }
    | UpstreamResult.bodyReadError e =>
      { response := jsonErrorResponse w0 500 (-1001)
          ("Erro ao ler resposta da Binance".data)
          ("Erro ao ler resposta: ".data ++ e)
        upstreamCalls := [r]
        gunzipAttempted := false }
    | UpstreamResult.success resp =>
      let pr := relayUpstream t w0 resp
      { response := pr.1, upstreamCalls := [r], gunzipAttempted := pr.2 }

/-- Writer headers installed by the CORS middleware of `setupRouter`
(main.go lines 334-338) before any handler runs. -/
def corsBase : WriterMap :=
  wSet (wSet (wSet (wSet []
    "Access-Control-Allow-Origin".data "*".data)
    "Access-Control-Allow-Methods".data "GET, POST, PUT, DELETE, OPTIONS".data)
    "Access-Control-Allow-Headers".data "Content-Type, Authorization".data)
    "Access-Control-Max-Age".data "3600".data

/-- The full per-request flow of `setupRouter` for a proxied route: CORS
middleware first (which aborts OPTIONS with status 200), then the
`ProxyRequest` handler. -/
def handleRequest (t : Transport) (c : InboundRequest) : Outcome :=
  if c.method == "OPTIONS".data then
    { response := { status := 200, headers := corsBase, body := RespBody.data [] }
      upstreamCalls := []
      gunzipAttempted := false }
  else proxyRequest t corsBase c

/-- Absence of a key (up to case) from the writer header map. -/
def noWKey (w : WriterMap) (k : Str) : Prop :=
  w.find? (fun p => strEqFold p.1 k) = none

instance (w : WriterMap) (k : Str) : Decidable (noWKey w k) := by
  unfold noWKey; infer_instance

/-- Absence of a key (up to case) from a request-header multimap. -/
def noHKey (m : ValuesMap) (k : Str) : Prop :=
  m.find? (fun p => strEqFold p.1 k) = none

instance (m : ValuesMap) (k : Str) : Decidable (noHKey m k) := by
  unfold noHKey; infer_instance

/-- All entries of a multimap whose key folds to `k`. -/
def keyFilter (m : ValuesMap) (k : Str) : ValuesMap :=
  m.filter (fun p => strEqFold p.1 k)

/-- Upstream header maps in the HTTP-normal form delivered by `net/http`:
keys pairwise distinct up to case, one value per key. -/
def hdrsWF (m : ValuesMap) : Prop :=
  (m.map (fun p => goToLower p.1)).Nodup ∧ ∀ p ∈ m, p.2.length = 1

instance (m : ValuesMap) : Decidable (hdrsWF m) := by
  unfold hdrsWF; infer_instance

/-! Concrete fixtures used to instantiate the theorems below. -/

/-- A transport whose upstream answers every request with an empty 200. -/
def tSuccessEmpty : Transport :=
  { doRequest := fun _ => UpstreamResult.success { status := 200, headers := [], body := [] }
    gunzip := fun _ => none
    jsonValid := fun _ => false }

/-- A transport whose upstream connection is always refused. -/
def tRefused : Transport :=
  { doRequest := fun _ => UpstreamResult.transportError "connection refused".data
    gunzip := fun _ => none
    jsonValid := fun _ => false }

/-- A plain GET request for a prefixed ticker path. -/
def cGet : InboundRequest :=
  { method := "GET".data, path := "/api/ticker/24hr".data
    query := [], headers := [], body := [] }

/-- A CORS preflight request. -/
def cOptions : InboundRequest :=
  { method := "OPTIONS".data, path := "/ticker/24hr".data
    query := [], headers := [], body := [] }

/-- A query carrying a comma-separated symbols list with stray spaces. -/
def qComma : ValuesMap := [("symbols".data, ["BTCUSDT, ETHUSDT ".data])]

/-- A query whose symbols value is already a JSON array. -/
def qJson : ValuesMap :=
  [("symbols".data, ["[\"BTCUSDT\",\"ETHUSDT\"]".data])]

/-- A GET request carrying the comma-separated symbols query. -/
def cSymbols : InboundRequest :=
  { method := "GET".data, path := "/ticker/price".data
    query := qComma, headers := [], body := [] }

/-- An upstream response declaring gzip with a well-formed body. -/
def respGzip : UpstreamResponse :=
  { status := 200
    headers := [("Content-Encoding".data, ["gzip".data]),
                ("Content-Length".data, ["3".data])]
    body := [31, 139, 8] }

/-- A transport returning `respGzip` whose gzip oracle decompresses the
body to two bytes. -/
def tGzip : Transport :=
  { doRequest := fun _ => UpstreamResult.success respGzip
    gunzip := fun _ => some [104, 105]
    jsonValid := fun _ => true }

/-- An upstream response declaring gzip over bytes that are not a gzip
stream. -/
def respBadGzip : UpstreamResponse :=
  { status := 200
    headers := [("Content-Encoding".data, ["gzip".data]),
                ("Content-Length".data, ["3".data]),
                ("Content-Type".data, ["application/json".data])]
    body := [31, 139, 8] }

/-- A transport returning `respBadGzip` whose gzip oracle fails. -/
def tBadGzip : Transport :=
  { doRequest := fun _ => UpstreamResult.success respBadGzip
    gunzip := fun _ => none
    jsonValid := fun _ => false }

/-- An upstream response with a non-gzip content encoding. -/
def respDeflate : UpstreamResponse :=
  { status := 200
    headers := [("Content-Encoding".data, ["deflate".data]),
                ("Content-Length".data, ["3".data])]
    body := [1, 2, 3] }

/-- A transport returning `respDeflate`. -/
def tDeflate : Transport :=
  { doRequest := fun _ => UpstreamResult.success respDeflate
    gunzip := fun _ => none
    jsonValid := fun _ => false }

/-- Inbound headers carrying hop-by-hop keys and an accept-encoding. -/
def hdrsIn : ValuesMap :=
  [("Host".data, ["example.com".data]),
   ("Accept-Encoding".data, ["br".data]),
   ("Connection".data, ["keep-alive".data]),
   ("X-Custom".data, ["1".data])]

/-- A GET request carrying `hdrsIn`. -/
def cHeaders : InboundRequest :=
  { method := "GET".data, path := "/ping".data
    query := [], headers := hdrsIn, body := [] }

/-! Basic facts about case-insensitive key comparison and the map
operations, used to reason about the header-copy loops. -/

theorem strEqFold_true_iff (a b : Str) :
    strEqFold a b = true ↔ goToLower a = goToLower b := by
  simp [strEqFold]

theorem strEqFold_false_iff (a b : Str) :
    strEqFold a b = false ↔ ¬ goToLower a = goToLower b := by
  simp [strEqFold]

theorem strEqFold_refl (a : Str) : strEqFold a a = true := by
  simp [strEqFold]

theorem strEqFold_trans_ne {x k k' : Str} (h : strEqFold k k' = true)
    (hx : strEqFold x k = false) : strEqFold x k' = false := by
  rw [strEqFold_true_iff] at h
  rw [strEqFold_false_iff] at hx ⊢
  intro hc
  exact hx (hc.trans h.symm)

theorem find?_filter_of_imp {α} (l : List α) (p q : α → Bool)
    (h : ∀ a, q a = true → p a = true) :
    (l.filter p).find? q = l.find? q := by
  induction l with
  | nil => rfl
  | cons a l ih =>
    by_cases hpa : p a = true
    · rw [List.filter_cons_of_pos hpa]
      by_cases hqa : q a = true
      · rw [List.find?_cons_of_pos _ hqa, List.find?_cons_of_pos _ hqa]
      · rw [List.find?_cons_of_neg _ hqa, List.find?_cons_of_neg _ hqa, ih]
    · rw [List.filter_cons_of_neg hpa]
      have hqa : ¬ q a = true := fun hq => hpa (h a hq)
      rw [List.find?_cons_of_neg _ hqa, ih]

theorem foldl_inv {α β} (P : α → Prop) (f : α → β → α) (l : List β) (init : α)
    (h0 : P init) (hstep : ∀ a b, b ∈ l → P a → P (f a b)) :
    P (l.foldl f init) := by
  induction l generalizing init with
  | nil => exact h0
  | cons b l ih =>
    exact ih (f init b) (hstep init b (List.mem_cons_self b l) h0)
      (fun a b' hb' ha => hstep a b' (List.mem_cons_of_mem b hb') ha)

/-! Lookup and update laws of the writer header map. -/

theorem find?_wDel_none {w : WriterMap} {k k' : Str} (h : strEqFold k k' = true) :
    (wDel w k).find? (fun p => strEqFold p.1 k') = none := by
  rw [List.find?_eq_none]
  intro x hx hc
  have hx2 := (List.mem_filter.mp hx).2
  have hxk : strEqFold x.1 k = false := by
    cases hek : strEqFold x.1 k with
    | false => rfl
    | true => rw [hek] at hx2; exact absurd hx2 (by simp)
  exact absurd hc (by rw [strEqFold_trans_ne h hxk]; simp)

theorem wGet_wSet_pos (w : WriterMap) (k v k' : Str) (h : strEqFold k k' = true) :
    wGet (wSet w k v) k' = v := by
  unfold wGet wSet
  rw [List.find?_append, find?_wDel_none h]
  simp [List.find?, h]

theorem fold_imp_helper {β} (k k' : Str) (h : strEqFold k k' = false) :
    ∀ a : Str × β, strEqFold a.1 k' = true → (!strEqFold a.1 k) = true := by
  intro a ha
  rw [strEqFold_true_iff] at ha
  cases hak : strEqFold a.1 k with
  | false => simp
  | true =>
    rw [strEqFold_true_iff] at hak
    rw [strEqFold_false_iff] at h
    exact absurd (hak.symm.trans ha) h

theorem wGet_wDel_neg (w : WriterMap) (k k' : Str) (h : strEqFold k k' = false) :
    wGet (wDel w k) k' = wGet w k' := by
  unfold wGet wDel
  rw [find?_filter_of_imp w _ _ (fold_imp_helper k k' h)]

theorem wGet_wSet_neg (w : WriterMap) (k v k' : Str) (h : strEqFold k k' = false) :
    wGet (wSet w k v) k' = wGet w k' := by
  unfold wGet wSet wDel
  rw [List.find?_append, find?_filter_of_imp w _ _ (fold_imp_helper k k' h)]
  simp [List.find?, h]

theorem wGet_cHeader_neg (w : WriterMap) (k v k' : Str) (h : strEqFold k k' = false) :
    wGet (cHeader w k v) k' = wGet w k' := by
  unfold cHeader
  by_cases hv : (v == ([] : Str)) = true
  · rw [if_pos hv]; exact wGet_wDel_neg w k k' h
  · rw [if_neg hv]; exact wGet_wSet_neg w k v k' h

theorem wGet_foldVals_neg (vs : List Str) (w : WriterMap) (k k' : Str)
    (h : strEqFold k k' = false) :
    wGet (vs.foldl (fun w v => cHeader w k v) w) k' = wGet w k' := by
  induction vs generalizing w with
  | nil => rfl
  | cons v vs ih => rw [List.foldl_cons, ih, wGet_cHeader_neg w k v k' h]

theorem wGet_of_noWKey {w : WriterMap} {k : Str} (h : noWKey w k) : wGet w k = [] := by
  unfold wGet; rw [h]

theorem noWKey_wDel {w : WriterMap} {k k' : Str} (h : noWKey w k') :
    noWKey (wDel w k) k' := by
  unfold noWKey at h ⊢
  unfold wDel
  rw [List.find?_eq_none] at h ⊢
  intro x hx
  exact h x (List.mem_of_mem_filter hx)

theorem noWKey_wSet {w : WriterMap} {k v k'} (hk : strEqFold k k' = false)
    (h : noWKey w k') : noWKey (wSet w k v) k' := by
  have hd := noWKey_wDel (k := k) h
  unfold noWKey at hd ⊢
  unfold wSet
  rw [List.find?_eq_none] at hd ⊢
  intro x hx
  rcases List.mem_append.mp hx with hx1 | hx2
  · exact hd x hx1
  · have hx' : x = (k, v) := by simpa using hx2
    subst hx'
    simp [hk]

theorem noWKey_cHeader {w : WriterMap} {k v k'} (hk : strEqFold k k' = false)
    (h : noWKey w k') : noWKey (cHeader w k v) k' := by
  unfold cHeader
  by_cases hv : (v == ([] : Str)) = true
  · rw [if_pos hv]; exact noWKey_wDel h
  · rw [if_neg hv]; exact noWKey_wSet hk h

theorem noWKey_foldVals {vs : List Str} {w : WriterMap} {k k'}
    (hk : strEqFold k k' = false) (h : noWKey w k') :
    noWKey (vs.foldl (fun w v => cHeader w k v) w) k' := by
  induction vs generalizing w with
  | nil => exact h
  | cons v vs ih => exact ih (noWKey_cHeader hk h)

/-! Behaviour of the response-direction header copy loop. -/

theorem copyResp_cons (w : WriterMap) (p : Str × List Str) (rest : ValuesMap)
    (enc : Str) :
    copyRespHeaders w (p :: rest) enc = copyRespHeaders (respStep enc w p) rest enc := rfl

theorem wGet_respStep_neg {p : Str × List Str} {key : Str} (enc : Str)
    (w : WriterMap) (h : strEqFold p.1 key = false) :
    wGet (respStep enc w p) key = wGet w key := by
  unfold respStep
  by_cases hs : skippedKey enc p.1 = true
  · rw [if_pos hs]
  · rw [if_neg hs]
    exact wGet_foldVals_neg p.2 w p.1 key h

theorem copyResp_wGet_none (hs : ValuesMap) (w : WriterMap) (enc key : Str)
    (h : ∀ p ∈ hs, strEqFold p.1 key = false) :
    wGet (copyRespHeaders w hs enc) key = wGet w key := by
  induction hs generalizing w with
  | nil => rfl
  | cons p rest ih =>
    rw [copyResp_cons, ih _ (fun q hq => h q (List.mem_cons_of_mem p hq)),
      wGet_respStep_neg enc w (h p (List.mem_cons_self p rest))]

theorem noWKey_respStep {p : Str × List Str} {key : Str} (enc : Str)
    {w : WriterMap} (h : strEqFold p.1 key = false) (hw : noWKey w key) :
    noWKey (respStep enc w p) key := by
  unfold respStep
  by_cases hs : skippedKey enc p.1 = true
  · rw [if_pos hs]; exact hw
  · rw [if_neg hs]; exact noWKey_foldVals h hw

theorem copyResp_noWKey (hs : ValuesMap) {w : WriterMap} (enc key : Str)
    (h : ∀ p ∈ hs, skippedKey enc p.1 = true ∨ strEqFold p.1 key = false)
    (h0 : noWKey w key) : noWKey (copyRespHeaders w hs enc) key := by
  induction hs generalizing w with
  | nil => exact h0
  | cons p rest ih =>
    rw [copyResp_cons]
    refine ih (fun q hq => h q (List.mem_cons_of_mem p hq)) ?_
    rcases h p (List.mem_cons_self p rest) with hsk | hne
    · unfold respStep; rw [if_pos hsk]; exact h0
    · exact noWKey_respStep enc hne h0

theorem copyResp_wGet_found (hs : ValuesMap) (w : WriterMap) (enc key : Str)
    (k0 : Str) (v0 : Str)
    (hnd : (hs.map (fun p => goToLower p.1)).Nodup)
    (hfind : hs.find? (fun p => strEqFold p.1 key) = some (k0, [v0]))
    (hskip : skippedKey enc k0 = false) (hv : (v0 == ([] : Str)) = false) :
    wGet (copyRespHeaders w hs enc) key = v0 := by
  induction hs generalizing w with
  | nil => simp [List.find?] at hfind
  | cons p rest ih =>
    by_cases hp : strEqFold p.1 key = true
    · simp only [List.find?, hp] at hfind
      have hpe : p = (k0, [v0]) := Option.some.inj hfind
      subst hpe
      have hrest : ∀ q ∈ rest, strEqFold q.1 key = false := by
        intro q hq
        cases hqk : strEqFold q.1 key with
        | false => rfl
        | true =>
          exfalso
          rw [strEqFold_true_iff] at hqk hp
          rw [List.map_cons, List.nodup_cons] at hnd
          exact hnd.1 (by
            rw [show goToLower (k0, [v0]).1 = goToLower q.1 from (hqk.trans hp.symm).symm]
            exact List.mem_map_of_mem _ hq)
      rw [copyResp_cons, copyResp_wGet_none rest _ enc key hrest]
      unfold respStep
      rw [if_neg (by rw [hskip]; simp)]
      show wGet (cHeader w k0 v0) key = v0
      unfold cHeader
      rw [if_neg (by rw [hv]; simp)]
      exact wGet_wSet_pos w k0 v0 key hp
    · have hp' : strEqFold p.1 key = false := by
        cases hpk : strEqFold p.1 key with
        | false => rfl
        | true => exact absurd hpk hp
      simp only [List.find?, hp'] at hfind
      rw [List.map_cons, List.nodup_cons] at hnd
      rw [copyResp_cons]
      exact ih _ hnd.2 hfind

/-! Lookup and update laws of the request-header and query multimaps. -/

theorem strEqFold_mem_ne {x k kt : Str} (h1 : strEqFold x k = true)
    (h2 : strEqFold k kt = false) : strEqFold x kt = false := by
  rw [strEqFold_true_iff] at h1
  rw [strEqFold_false_iff] at h2 ⊢
  intro hc
  exact h2 (h1.symm.trans hc)

theorem find?_filterNe_none {β} (m : List (Str × β)) (k k' : Str)
    (h : strEqFold k k' = true) :
    (m.filter (fun p => !(strEqFold p.1 k))).find? (fun p => strEqFold p.1 k') = none := by
  rw [List.find?_eq_none]
  intro x hx hc
  have hx2 := (List.mem_filter.mp hx).2
  have hxk : strEqFold x.1 k = false := by
    cases hek : strEqFold x.1 k with
    | false => rfl
    | true => rw [hek] at hx2; exact absurd hx2 (by simp)
  exact absurd hc (by rw [strEqFold_trans_ne h hxk]; simp)

theorem hGet_hSet_pos (m : ValuesMap) (k v k' : Str) (h : strEqFold k k' = true) :
    hGet (hSet m k v) k' = v := by
  unfold hGet hSet
  rw [List.find?_append, find?_filterNe_none m k k' h]
  simp [List.find?, h]

theorem hGet_hSet_neg (m : ValuesMap) (k v k' : Str) (h : strEqFold k k' = false) :
    hGet (hSet m k v) k' = hGet m k' := by
  unfold hGet hSet
  rw [List.find?_append, find?_filter_of_imp m _ _ (fold_imp_helper k k' h)]
  simp [List.find?, h]

theorem hGet_of_noHKey {m : ValuesMap} {k : Str} (h : noHKey m k) : hGet m k = [] := by
  unfold hGet; rw [h]

theorem noHKey_hSet {m : ValuesMap} {k v k'} (hk : strEqFold k k' = false)
    (h : noHKey m k') : noHKey (hSet m k v) k' := by
  unfold noHKey at h ⊢
  unfold hSet
  rw [List.find?_eq_none] at h ⊢
  intro x hx
  rcases List.mem_append.mp hx with hx1 | hx2
  · exact h x (List.mem_of_mem_filter hx1)
  · have hx' : x = (k, [v]) := by simpa using hx2
    subst hx'
    simp [hk]

theorem noHKey_hAdd {m : ValuesMap} {k v k'} (hk : strEqFold k k' = false)
    (h : noHKey m k') : noHKey (hAdd m k v) k' := by
  unfold noHKey at h ⊢
  unfold hAdd
  rw [List.find?_eq_none] at h
  by_cases hany : m.any (fun p => strEqFold p.1 k) = true
  · rw [if_pos hany, List.find?_eq_none]
    intro x hx hc
    rcases List.mem_map.mp hx with ⟨y, hy, hxy⟩
    have hx1 : x.1 = y.1 := by
      by_cases hyk : strEqFold y.1 k = true
      · rw [← hxy]; simp [hyk]
      · rw [← hxy]; simp [hyk]
    exact h y hy (by rw [← hx1]; exact hc)
  · rw [if_neg hany, List.find?_eq_none]
    intro x hx hc
    rcases List.mem_append.mp hx with hx1 | hx2
    · exact h x hx1 hc
    · have hx' : x = (k, [v]) := by simpa using hx2
      subst hx'
      rw [hk] at hc
      exact absurd hc (by simp)

theorem noHKey_foldAdds {vs : List Str} {m : ValuesMap} {k k'}
    (hk : strEqFold k k' = false) (h : noHKey m k') :
    noHKey (vs.foldl (fun a v => hAdd a k v) m) k' := by
  induction vs generalizing m with
  | nil => exact h
  | cons v vs ih => exact ih (noHKey_hAdd hk h)

theorem keyFilter_hSet_pos (m : ValuesMap) (k v kt : Str)
    (h : strEqFold k kt = true) :
    keyFilter (hSet m k v) kt = [(k, [v])] := by
  unfold keyFilter hSet
  rw [List.filter_append]
  have h1 : (m.filter (fun p => !(strEqFold p.1 k))).filter
      (fun p => strEqFold p.1 kt) = [] := by
    rw [List.filter_eq_nil_iff]
    intro a ha hc
    have ha2 := (List.mem_filter.mp ha).2
    have hak : strEqFold a.1 k = false := by
      cases hek : strEqFold a.1 k with
      | false => rfl
      | true => rw [hek] at ha2; exact absurd ha2 (by simp)
    exact absurd hc (by rw [strEqFold_trans_ne h hak]; simp)
  rw [h1]
  simp [List.filter, h]

theorem keyFilter_hSet_neg (m : ValuesMap) (k v kt : Str)
    (h : strEqFold k kt = false) :
    keyFilter (hSet m k v) kt = keyFilter m kt := by
  unfold keyFilter hSet
  rw [List.filter_append]
  have h2 : List.filter (fun p => strEqFold p.1 kt) [(k, [v])] = [] := by
    simp [List.filter, h]
  rw [h2, List.append_nil, List.filter_filter]
  apply List.filter_congr
  intro a _
  cases hakt : strEqFold a.1 kt with
  | false => simp
  | true =>
    have hak : strEqFold a.1 k = false := by
      cases hek : strEqFold a.1 k with
      | false => rfl
      | true => exact absurd hakt (by rw [strEqFold_mem_ne hek h]; simp)
    simp [hak]

theorem keyFilter_map_grow (m : ValuesMap) (k v kt : Str)
    (h : strEqFold k kt = false) :
    List.filter (fun p => strEqFold p.1 kt)
      (m.map (fun p => if strEqFold p.1 k then (p.1, p.2 ++ [v]) else p)) =
    List.filter (fun p => strEqFold p.1 kt) m := by
  induction m with
  | nil => rfl
  | cons p rest ih =>
    simp only [List.map_cons, List.filter_cons]
    by_cases hpk : strEqFold p.1 k = true
    · have hpkt : strEqFold p.1 kt = false := strEqFold_mem_ne hpk h
      simp only [hpk, if_true, hpkt]
      simpa [hpkt] using ih
    · have hpk' : strEqFold p.1 k = false := by
        cases hek : strEqFold p.1 k with
        | false => rfl
        | true => exact absurd hek hpk
      simp only [hpk', if_false]
      cases hpkt : strEqFold p.1 kt with
      | false => simpa [hpkt] using ih
      | true => simpa [hpkt] using ih

theorem keyFilter_hAdd_neg (m : ValuesMap) (k v kt : Str)
    (h : strEqFold k kt = false) :
    keyFilter (hAdd m k v) kt = keyFilter m kt := by
  unfold keyFilter hAdd
  by_cases hany : m.any (fun p => strEqFold p.1 k) = true
  · rw [if_pos hany]
    exact keyFilter_map_grow m k v kt h
  · rw [if_neg hany, List.filter_append]
    have h2 : List.filter (fun p => strEqFold p.1 kt) [(k, [v])] = [] := by
      simp [List.filter, h]
    rw [h2, List.append_nil]

theorem keyFilter_foldAdds (vs : List Str) (m : ValuesMap) (k kt : Str)
    (h : strEqFold k kt = false) :
    keyFilter (vs.foldl (fun a v => hAdd a k v) m) kt = keyFilter m kt := by
  induction vs generalizing m with
  | nil => rfl
  | cons v vs ih => rw [List.foldl_cons, ih, keyFilter_hAdd_neg m k v kt h]

theorem vFind_vSet_pos (q : ValuesMap) (k v : Str) :
    vFind (vSet q k v) k = some [v] := by
  unfold vFind vSet
  rw [List.find?_append]
  have h1 : (q.filter (fun p => !(p.1 == k))).find? (fun p => p.1 == k) = none := by
    rw [List.find?_eq_none]
    intro x hx hc
    have hx2 := (List.mem_filter.mp hx).2
    rw [hc] at hx2
    exact absurd hx2 (by simp)
  rw [h1]
  simp [List.find?]

theorem vFind_vSet_neg (q : ValuesMap) (k v k' : Str) (h : ¬ k' = k) :
    vFind (vSet q k v) k' = vFind q k' := by
  unfold vFind vSet
  have himp : ∀ a : Str × List Str, (a.1 == k') = true → (!(a.1 == k)) = true := by
    intro a ha
    have ha' : a.1 = k' := by simpa using ha
    simp [ha', h]
  rw [List.find?_append, find?_filter_of_imp q _ _ himp]
  have hkk : (k == k') = false := by
    simp
    intro hc
    exact h hc.symm
  simp [List.find?, hkk]

/-! Behaviour of the request-direction header filtering. -/

theorem mem_hSet_keys {m : ValuesMap} {k v : Str} {x : Str × List Str}
    (hx : x ∈ hSet m k v) : x.1 = k ∨ ∃ p, p ∈ m ∧ x.1 = p.1 := by
  unfold hSet at hx
  rcases List.mem_append.mp hx with h1 | h2
  · exact Or.inr ⟨x, List.mem_of_mem_filter h1, rfl⟩
  · have hx' : x = (k, [v]) := by simpa using h2
    exact Or.inl (by rw [hx'])

theorem mem_hAdd_keys {m : ValuesMap} {k v : Str} {x : Str × List Str}
    (hx : x ∈ hAdd m k v) : x.1 = k ∨ ∃ p, p ∈ m ∧ x.1 = p.1 := by
  unfold hAdd at hx
  by_cases hany : m.any (fun p => strEqFold p.1 k) = true
  · rw [if_pos hany] at hx
    rcases List.mem_map.mp hx with ⟨y, hy, hxy⟩
    refine Or.inr ⟨y, hy, ?_⟩
    by_cases hyk : strEqFold y.1 k = true
    · rw [← hxy]; simp [hyk]
    · rw [← hxy]; simp [hyk]
  · rw [if_neg hany] at hx
    rcases List.mem_append.mp hx with h1 | h2
    · exact Or.inr ⟨x, h1, rfl⟩
    · have hx' : x = (k, [v]) := by simpa using h2
      exact Or.inl (by rw [hx'])

theorem mem_foldAdds_keys (vs : List Str) (k : Str) :
    ∀ (m : ValuesMap) (x : Str × List Str),
      x ∈ vs.foldl (fun a v => hAdd a k v) m →
      x.1 = k ∨ ∃ p, p ∈ m ∧ x.1 = p.1 := by
  induction vs with
  | nil => exact fun m x hx => Or.inr ⟨x, hx, rfl⟩
  | cons v vs ih =>
    intro m x hx
    rw [List.foldl_cons] at hx
    rcases ih (hAdd m k v) x hx with h1 | ⟨p, hp, hxp⟩
    · exact Or.inl h1
    · rcases mem_hAdd_keys hp with h2 | ⟨q, hq, hpq⟩
      · exact Or.inl (hxp.trans h2)
      · exact Or.inr ⟨q, hq, hxp.trans hpq⟩

theorem reqStep_goodKeys (acc : ValuesMap) (p : Str × List Str)
    (h : ∀ x ∈ acc, ¬ goToLower x.1 = "host".data ∧
      ¬ goToLower x.1 = "connection".data ∧ ¬ goToLower x.1 = "keep-alive".data) :
    ∀ x ∈ reqStep acc p, ¬ goToLower x.1 = "host".data ∧
      ¬ goToLower x.1 = "connection".data ∧ ¬ goToLower x.1 = "keep-alive".data := by
  intro x hx
  simp only [reqStep] at hx
  by_cases h1 : (goToLower p.1 == "host".data || goToLower p.1 == "connection".data
      || goToLower p.1 == "keep-alive".data) = true
  · rw [if_pos h1] at hx
    exact h x hx
  · rw [if_neg h1] at hx
    by_cases h2 : (goToLower p.1 == "accept-encoding".data) = true
    · rw [if_pos h2] at hx
      rcases mem_hSet_keys hx with hk | ⟨q, hq, hxq⟩
      · rw [hk]
        exact ⟨by decide, by decide, by decide⟩
      · rw [hxq]
        exact h q hq
    · rw [if_neg h2] at hx
      rcases mem_foldAdds_keys p.2 p.1 acc x hx with hk | ⟨q, hq, hxq⟩
      · rw [hk]
        have h1' := h1
        simp only [Bool.or_eq_true, not_or] at h1'
        refine ⟨?_, ?_, ?_⟩ <;> intro hc
        · exact h1'.1.1 (by rw [hc]; simp)
        · exact h1'.1.2 (by rw [hc]; simp)
        · exact h1'.2 (by rw [hc]; simp)
      · rw [hxq]
        exact h q hq

theorem buildOutbound_goodKeys (inH : ValuesMap) :
    ∀ x ∈ buildOutboundHeaders inH, ¬ goToLower x.1 = "host".data ∧
      ¬ goToLower x.1 = "connection".data ∧ ¬ goToLower x.1 = "keep-alive".data := by
  have hfold : ∀ x ∈ inH.foldl reqStep [], ¬ goToLower x.1 = "host".data ∧
      ¬ goToLower x.1 = "connection".data ∧ ¬ goToLower x.1 = "keep-alive".data := by
    refine foldl_inv (fun acc => ∀ x ∈ acc, ¬ goToLower x.1 = "host".data ∧
      ¬ goToLower x.1 = "connection".data ∧ ¬ goToLower x.1 = "keep-alive".data)
      reqStep inH [] ?_ ?_
    · intro x hx
      cases hx
    · exact fun acc p _ hacc => reqStep_goodKeys acc p hacc
  simp only [buildOutboundHeaders]
  by_cases hua : (hGet (inH.foldl reqStep []) "User-Agent".data == ([] : Str)) = true
  · rw [if_pos hua]
    intro x hx
    rcases mem_hSet_keys hx with hk | ⟨q, hq, hxq⟩
    · rw [hk]
      exact ⟨by decide, by decide, by decide⟩
    · rw [hxq]
      exact hfold q hq
  · rw [if_neg hua]
    exact hfold

theorem reqStep_keyFilterAE (acc : ValuesMap) (p : Str × List Str)
    (hacc : keyFilter acc "Accept-Encoding".data =
      [("Accept-Encoding".data, ["gzip, deflate".data])]) :
    keyFilter (reqStep acc p) "Accept-Encoding".data =
      [("Accept-Encoding".data, ["gzip, deflate".data])] := by
  simp only [reqStep]
  by_cases h1 : (goToLower p.1 == "host".data || goToLower p.1 == "connection".data
      || goToLower p.1 == "keep-alive".data) = true
  · rw [if_pos h1]
    exact hacc
  · rw [if_neg h1]
    by_cases h2 : (goToLower p.1 == "accept-encoding".data) = true
    · rw [if_pos h2]
      exact keyFilter_hSet_pos acc _ _ _ (by decide)
    · rw [if_neg h2]
      rw [keyFilter_foldAdds p.2 acc p.1 _ ?_]
      · exact hacc
      · unfold strEqFold
        rw [(by decide : goToLower "Accept-Encoding".data = "accept-encoding".data)]
        simpa using h2

theorem reqStep_setsAE (acc : ValuesMap) (p : Str × List Str)
    (hp : strEqFold p.1 "Accept-Encoding".data = true) :
    keyFilter (reqStep acc p) "Accept-Encoding".data =
      [("Accept-Encoding".data, ["gzip, deflate".data])] := by
  have hkl : goToLower p.1 = "accept-encoding".data := by
    rw [strEqFold_true_iff] at hp
    rw [hp]
    decide
  simp only [reqStep]
  rw [if_neg (by rw [hkl]; decide)]
  rw [if_pos (by rw [hkl]; simp)]
  exact keyFilter_hSet_pos acc _ _ _ (by decide)

theorem foldReq_keyFilterAE_preserve (l : ValuesMap) :
    ∀ acc, keyFilter acc "Accept-Encoding".data =
        [("Accept-Encoding".data, ["gzip, deflate".data])] →
      keyFilter (l.foldl reqStep acc) "Accept-Encoding".data =
        [("Accept-Encoding".data, ["gzip, deflate".data])] := by
  induction l with
  | nil => exact fun acc h => h
  | cons p rest ih =>
    intro acc h
    rw [List.foldl_cons]
    exact ih _ (reqStep_keyFilterAE acc p h)

theorem buildOutbound_AE (inH : ValuesMap)
    (hex : ∃ p, p ∈ inH ∧ strEqFold p.1 "Accept-Encoding".data = true) :
    keyFilter (buildOutboundHeaders inH) "Accept-Encoding".data =
      [("Accept-Encoding".data, ["gzip, deflate".data])] := by
  have hfold : ∀ (l : ValuesMap), (∃ p, p ∈ l ∧ strEqFold p.1 "Accept-Encoding".data = true) →
      ∀ acc, keyFilter (l.foldl reqStep acc) "Accept-Encoding".data =
        [("Accept-Encoding".data, ["gzip, deflate".data])] := by
    intro l
    induction l with
    | nil =>
      rintro ⟨p, hp, _⟩
      cases hp
    | cons p rest ih =>
      rintro ⟨q, hq, hqAE⟩ acc
      rw [List.foldl_cons]
      rcases List.mem_cons.mp hq with rfl | hq'
      · exact foldReq_keyFilterAE_preserve rest _ (reqStep_setsAE acc q hqAE)
      · exact ih ⟨q, hq', hqAE⟩ (reqStep acc p)
  simp only [buildOutboundHeaders]
  by_cases hua : (hGet (inH.foldl reqStep []) "User-Agent".data == ([] : Str)) = true
  · rw [if_pos hua]
    rw [keyFilter_hSet_neg _ _ _ _ (by decide)]
    exact hfold inH hex []
  · rw [if_neg hua]
    exact hfold inH hex []

theorem buildOutbound_UA_absent (inH : ValuesMap)
    (hUA : ∀ p ∈ inH, strEqFold p.1 "User-Agent".data = false) :
    hGet (buildOutboundHeaders inH) "User-Agent".data = "Binance-Proxy/1.0".data := by
  have hfold : noHKey (inH.foldl reqStep []) "User-Agent".data := by
    refine foldl_inv (fun acc => noHKey acc "User-Agent".data) reqStep inH [] ?_ ?_
    · rfl
    · intro acc p hp hacc
      simp only [reqStep]
      by_cases h1 : (goToLower p.1 == "host".data || goToLower p.1 == "connection".data
          || goToLower p.1 == "keep-alive".data) = true
      · rw [if_pos h1]
        exact hacc
      · rw [if_neg h1]
        by_cases h2 : (goToLower p.1 == "accept-encoding".data) = true
        · rw [if_pos h2]
          exact noHKey_hSet (by decide) hacc
        · rw [if_neg h2]
          exact noHKey_foldAdds (hUA p hp) hacc
  simp only [buildOutboundHeaders]
  rw [if_pos (by rw [hGet_of_noHKey hfold]; simp)]
  exact hGet_hSet_pos _ _ _ _ (strEqFold_refl _)

theorem buildOutbound_UA_nonempty (inH : ValuesMap) :
    ¬ hGet (buildOutboundHeaders inH) "User-Agent".data = [] := by
  simp only [buildOutboundHeaders]
  by_cases hua : (hGet (inH.foldl reqStep []) "User-Agent".data == ([] : Str)) = true
  · rw [if_pos hua, hGet_hSet_pos _ _ _ _ (strEqFold_refl _)]
    decide
  · rw [if_neg hua]
    simpa using hua

/-! Unfolding of the full request flow under each upstream outcome. -/

theorem handleRequest_success (t : Transport) (c : InboundRequest)
    (resp : UpstreamResponse)
    (h1 : (c.method == "OPTIONS".data) = false)
    (h2 : validMethod c.method = true)
    (hd : ∀ r, t.doRequest r = UpstreamResult.success resp) :
    handleRequest t c =
      { response := (relayUpstream t corsBase resp).1
        upstreamCalls := [mkOutboundRequest c]
        gunzipAttempted := (relayUpstream t corsBase resp).2 } := by
  simp [handleRequest, proxyRequest, h1, h2, hd]

theorem handleRequest_transport (t : Transport) (c : InboundRequest) (e : Str)
    (h1 : (c.method == "OPTIONS".data) = false)
    (h2 : validMethod c.method = true)
    (hd : ∀ r, t.doRequest r = UpstreamResult.transportError e) :
    handleRequest t c =
      { response := jsonErrorResponse corsBase 502 (-1000)
          ("Erro ao conectar com Binance: ".data ++ e)
          ("Erro ao conectar com Binance: ".data ++ e)
        upstreamCalls := [mkOutboundRequest c]
        gunzipAttempted := false } := by
  simp [handleRequest, proxyRequest, h1, h2, hd]

theorem handleRequest_calls (t : Transport) (c : InboundRequest)
    (h1 : (c.method == "OPTIONS".data) = false)
    (h2 : validMethod c.method = true) :
    (handleRequest t c).upstreamCalls = [mkOutboundRequest c] := by
  cases hd : t.doRequest (mkOutboundRequest c) <;>
    simp [handleRequest, proxyRequest, h1, h2, hd]

/-! Path normalization facts. -/

theorem goStartsWith_append_self (pre s : Str) :
    goStartsWith (pre ++ s) pre = true := by
  unfold goStartsWith
  rw [List.isPrefixOf_iff_prefix]
  exact List.prefix_append pre s

theorem goTrimLead_append (pre s : Str) : goTrimLead (pre ++ s) pre = s := by
  unfold goTrimLead
  rw [if_pos (goStartsWith_append_self pre s)]
  exact List.drop_left pre s

theorem ensureSlash_startsWith (q : Str) :
    goStartsWith (ensureSlash q) "/".data = true := by
  unfold ensureSlash
  by_cases h : goStartsWith q "/".data = true
  · rw [if_pos h]; exact h
  · rw [if_neg h]
    unfold goStartsWith
    rw [(by decide : "/".data = [Char.ofNat 47])]
    simp [List.isPrefixOf]

theorem normalizePath_startsWith (p : Str) :
    goStartsWith (normalizePath p) "/".data = true :=
  ensureSlash_startsWith (stripAPI p)

theorem normalizePath_api (s : Str) :
    normalizePath ("/api".data ++ s) =
      (if goStartsWith s "/".data then s else Char.ofNat 47 :: s) := by
  unfold normalizePath stripAPI
  rw [if_pos (goStartsWith_append_self "/api".data s), goTrimLead_append]
  rfl

/-- C4: for every inbound path, normalization strips a leading `/api`
prefix if present and guarantees the result starts with `/` (prepending
one if absent); `normalize("/api/ticker/24hr") = "/ticker/24hr"` and
`normalize("ticker/price") = "/ticker/price"`; and the request target is
the upstream base URL concatenated with the normalized path (with the
query carried separately). -/
theorem c4_path_normalization (t : Transport) (c : InboundRequest) (p s : Str)
    (h1 : (c.method == "OPTIONS".data) = false)
    (h2 : validMethod c.method = true) :
    goStartsWith (normalizePath p) "/".data = true ∧
    normalizePath ("/api".data ++ s) =
      (if goStartsWith s "/".data then s else Char.ofNat 47 :: s) ∧
    normalizePath "/api/ticker/24hr".data = "/ticker/24hr".data ∧
    normalizePath "ticker/price".data = "/ticker/price".data ∧
    (handleRequest t c).upstreamCalls = [mkOutboundRequest c] ∧
    (mkOutboundRequest c).url = binanceAPIBaseURL ++ normalizePath c.path :=
  ⟨normalizePath_startsWith p, normalizePath_api s, by decide, by decide,
    handleRequest_calls t c h1 h2, rfl⟩

theorem c4_path_normalization_witness :
    ((cGet.method == "OPTIONS".data) = false) ∧ validMethod cGet.method = true ∧
    (handleRequest tSuccessEmpty cGet).upstreamCalls = [mkOutboundRequest cGet] ∧
    (mkOutboundRequest cGet).url = binanceAPIBaseURL ++ normalizePath cGet.path := by
  refine ⟨by decide, by decide, ?_, ?_⟩
  · exact (c4_path_normalization tSuccessEmpty cGet "/x".data "x".data
      (by decide) (by decide)).2.2.2.2.1
  · exact (c4_path_normalization tSuccessEmpty cGet "/x".data "x".data
      (by decide) (by decide)).2.2.2.2.2

/-- C5: symbols normalization leaves a value that already starts with `[`
unchanged, so applying the transformation twice equals applying it
once. -/
theorem c5_symbols_idempotent (q : ValuesMap) (v : Str) (vs : List Str)
    (hq : vFind q "symbols".data = some (v :: vs))
    (hv : goStartsWith v "[".data = true) :
    processQuery q = q ∧ processQuery (processQuery q) = processQuery q := by
  have h : processQuery q = q := by
    simp [processQuery, hq, hv]
  exact ⟨h, by rw [h, h]⟩

theorem c5_symbols_idempotent_witness :
    vFind qJson "symbols".data = some ["[\"BTCUSDT\",\"ETHUSDT\"]".data] ∧
    goStartsWith "[\"BTCUSDT\",\"ETHUSDT\"]".data "[".data = true ∧
    processQuery qJson = qJson ∧
    processQuery (processQuery qJson) = processQuery qJson := by
  refine ⟨by decide, by decide, ?_, ?_⟩
  · exact (c5_symbols_idempotent qJson "[\"BTCUSDT\",\"ETHUSDT\"]".data []
      (by decide) (by decide)).1
  · exact (c5_symbols_idempotent qJson "[\"BTCUSDT\",\"ETHUSDT\"]".data []
      (by decide) (by decide)).2

/-- C3: when the symbols parameter is present and its first value does not
start with `[`, the outbound symbols value is the JSON array obtained by
splitting that value on commas and trimming surrounding whitespace from
each element (the JSON encoding of a string list never fails). -/
theorem c3_symbols_conversion (t : Transport) (c : InboundRequest)
    (v : Str) (vs : List Str)
    (h1 : (c.method == "OPTIONS".data) = false)
    (h2 : validMethod c.method = true)
    (hq : vFind c.query "symbols".data = some (v :: vs))
    (hv : goStartsWith v "[".data = false) :
    (handleRequest t c).upstreamCalls = [mkOutboundRequest c] ∧
    vFind (mkOutboundRequest c).query "symbols".data =
      some [jsonMarshalStrings ((goSplit v (Char.ofNat 44)).map goTrimSpace)] := by
  refine ⟨handleRequest_calls t c h1 h2, ?_⟩
  show vFind (processQuery c.query) "symbols".data = _
  simp only [processQuery, hq]
  rw [if_neg (by rw [hv]; simp)]
  exact vFind_vSet_pos c.query "symbols".data _

theorem c3_symbols_conversion_witness :
    vFind qComma "symbols".data = some ["BTCUSDT, ETHUSDT ".data] ∧
    goStartsWith "BTCUSDT, ETHUSDT ".data "[".data = false ∧
    jsonMarshalStrings ((goSplit "BTCUSDT,ETHUSDT".data (Char.ofNat 44)).map goTrimSpace)
      = "[\"BTCUSDT\",\"ETHUSDT\"]".data ∧
    vFind (mkOutboundRequest cSymbols).query "symbols".data
      = some ["[\"BTCUSDT\",\"ETHUSDT\"]".data] := by
  refine ⟨by decide, by decide, by decide, ?_⟩
  have h := (c3_symbols_conversion tSuccessEmpty cSymbols
    "BTCUSDT, ETHUSDT ".data [] (by decide) (by decide) (by decide) (by decide)).2
  rw [h]
  decide

/-- C9 counterexample: on an inbound request whose `symbols` key carries
two values, the second value is not carried onto the outbound request in
any form — `url.Values.Set` replaces the whole list with the single JSON
encoding of the first value. -/
theorem c9_duplicates_dropped :
    vFind [("symbols".data, ["BTCUSDT".data, "ETHUSDT".data])] "symbols".data
      = some ["BTCUSDT".data, "ETHUSDT".data] ∧
    processQuery [("symbols".data, ["BTCUSDT".data, "ETHUSDT".data])]
      = [("symbols".data, ["[\"BTCUSDT\"]".data])] := by
  exact ⟨by decide, by decide⟩

/-- C9 amended: every value of every query key other than `symbols` is
carried onto the outbound request unchanged; the `symbols` key is left
fully untouched when absent, empty, or when its first value starts with
`[`, and otherwise its whole value list is replaced by the single JSON
encoding of the split of its first value. -/
theorem c9_query_multimap (q : ValuesMap) (k : Str) (v : Str) (vs : List Str)
    (hk : ¬ k = "symbols".data) :
    vFind (processQuery q) k = vFind q k ∧
    (vFind q "symbols".data = none → processQuery q = q) ∧
    (vFind q "symbols".data = some [] → processQuery q = q) ∧
    (vFind q "symbols".data = some (v :: vs) → goStartsWith v "[".data = true →
      processQuery q = q) ∧
    (vFind q "symbols".data = some (v :: vs) → goStartsWith v "[".data = false →
      vFind (processQuery q) "symbols".data =
        some [jsonMarshalStrings ((goSplit v (Char.ofNat 44)).map goTrimSpace)]) := by
  refine ⟨?_, ?_, ?_, ?_, ?_⟩
  · cases hf : vFind q "symbols".data with
    | none => simp [processQuery, hf]
    | some l =>
      cases l with
      | nil => simp [processQuery, hf]
      | cons v' vs' =>
        simp only [processQuery, hf]
        by_cases hv : goStartsWith v' "[".data = true
        · rw [if_pos hv]
        · rw [if_neg hv]
          exact vFind_vSet_neg q "symbols".data _ k hk
  · intro h; simp [processQuery, h]
  · intro h; simp [processQuery, h]
  · intro h hv; simp [processQuery, h, hv]
  · intro h hv
    simp only [processQuery, h]
    rw [if_neg (by rw [hv]; simp)]
    exact vFind_vSet_pos q "symbols".data _

theorem c9_query_multimap_witness :
    ¬ "symbol".data = "symbols".data ∧
    vFind (processQuery [("symbol".data, ["BTCUSDT".data])]) "symbol".data
      = vFind [("symbol".data, ["BTCUSDT".data])] "symbol".data := by
  refine ⟨by decide, ?_⟩
  exact (c9_query_multimap [("symbol".data, ["BTCUSDT".data])] "symbol".data
    "x".data [] (by decide)).1

/-- C6: an OPTIONS request never reaches the upstream dispatch stage — the
CORS middleware aborts it with status 200 and the CORS headers plus a
max-age directive, and the handler's own preflight branch does the same
for any initial writer state. -/
theorem c6_options_preflight (t : Transport) (w0 : WriterMap)
    (c : InboundRequest) (h : c.method = "OPTIONS".data) :
    (handleRequest t c).upstreamCalls = [] ∧
    (handleRequest t c).response.status = 200 ∧
    wGet (handleRequest t c).response.headers
      "Access-Control-Allow-Origin".data = "*".data ∧
    wGet (handleRequest t c).response.headers
      "Access-Control-Allow-Methods".data = "GET, POST, PUT, DELETE, OPTIONS".data ∧
    wGet (handleRequest t c).response.headers
      "Access-Control-Allow-Headers".data = "Content-Type, Authorization".data ∧
    wGet (handleRequest t c).response.headers
      "Access-Control-Max-Age".data = "3600".data ∧
    (proxyRequest t w0 c).upstreamCalls = [] ∧
    (proxyRequest t w0 c).response.status = 200 ∧
    wGet (proxyRequest t w0 c).response.headers
      "Access-Control-Allow-Origin".data = "*".data ∧
    wGet (proxyRequest t w0 c).response.headers
      "Access-Control-Allow-Methods".data = "GET, POST, PUT, DELETE, OPTIONS".data ∧
    wGet (proxyRequest t w0 c).response.headers
      "Access-Control-Allow-Headers".data = "Content-Type, Authorization".data ∧
    wGet (proxyRequest t w0 c).response.headers
      "Access-Control-Max-Age".data = "3600".data := by
  have hb : (c.method == "OPTIONS".data) = true := by rw [h]; simp
  have hH : handleRequest t c =
      { response := { status := 200, headers := corsBase, body := RespBody.data [] }
        upstreamCalls := [], gunzipAttempted := false } := by
    simp [handleRequest, hb]
  have hP : proxyRequest t w0 c =
      { response :=
          { status := 200
            headers := wSet (wSet (wSet (wSet w0
              "Access-Control-Allow-Origin".data "*".data)
              "Access-Control-Allow-Methods".data "GET, POST, PUT, DELETE, OPTIONS".data)
              "Access-Control-Allow-Headers".data "Content-Type, Authorization".data)
              "Access-Control-Max-Age".data "3600".data
            body := RespBody.data [] }
        upstreamCalls := [], gunzipAttempted := false } := by
    simp [proxyRequest, hb]
  rw [hH, hP]
  refine ⟨rfl, rfl, by decide, by decide, by decide, by decide, rfl, rfl, ?_, ?_, ?_, ?_⟩
  · rw [wGet_wSet_neg _ _ _ _ (by decide), wGet_wSet_neg _ _ _ _ (by decide),
      wGet_wSet_neg _ _ _ _ (by decide), wGet_wSet_pos _ _ _ _ (by decide)]
  · rw [wGet_wSet_neg _ _ _ _ (by decide), wGet_wSet_neg _ _ _ _ (by decide),
      wGet_wSet_pos _ _ _ _ (by decide)]
  · rw [wGet_wSet_neg _ _ _ _ (by decide), wGet_wSet_pos _ _ _ _ (by decide)]
  · rw [wGet_wSet_pos _ _ _ _ (by decide)]

theorem c6_options_preflight_witness :
    cOptions.method = "OPTIONS".data ∧
    (handleRequest tSuccessEmpty cOptions).upstreamCalls = [] ∧
    (handleRequest tSuccessEmpty cOptions).response.status = 200 ∧
    wGet (handleRequest tSuccessEmpty cOptions).response.headers
      "Access-Control-Max-Age".data = "3600".data := by
  refine ⟨rfl, ?_, ?_, ?_⟩
  · exact (c6_options_preflight tSuccessEmpty [] cOptions rfl).1
  · exact (c6_options_preflight tSuccessEmpty [] cOptions rfl).2.1
  · exact (c6_options_preflight tSuccessEmpty [] cOptions rfl).2.2.2.2.2.1

/-- C7: a transport-level failure of the outbound call is not retried —
exactly one upstream call is made — and yields HTTP 502 with a JSON body
whose code is -1000 and whose msg and message fields carry the error. -/
theorem c7_transport_failure (t : Transport) (c : InboundRequest) (e : Str)
    (h1 : (c.method == "OPTIONS".data) = false)
    (h2 : validMethod c.method = true)
    (hd : ∀ r, t.doRequest r = UpstreamResult.transportError e) :
    (handleRequest t c).response.status = 502 ∧
    (handleRequest t c).response.body = RespBody.jsonError (-1000)
      ("Erro ao conectar com Binance: ".data ++ e)
      ("Erro ao conectar com Binance: ".data ++ e) ∧
    (handleRequest t c).upstreamCalls.length = 1 := by
  rw [handleRequest_transport t c e h1 h2 hd]
  exact ⟨rfl, rfl, rfl⟩

theorem c7_transport_failure_witness :
    (handleRequest tRefused cGet).response.status = 502 ∧
    (handleRequest tRefused cGet).response.body = RespBody.jsonError (-1000)
      ("Erro ao conectar com Binance: ".data ++ "connection refused".data)
      ("Erro ao conectar com Binance: ".data ++ "connection refused".data) ∧
    (handleRequest tRefused cGet).upstreamCalls.length = 1 :=
  c7_transport_failure tRefused cGet "connection refused".data
    (by decide) (by decide) (fun r => rfl)

/-! Behaviour of the response relay in the gzip cases. -/

theorem relayUpstream_gzip_body (t : Transport) (w0 : WriterMap)
    (resp : UpstreamResponse) (d : List Nat)
    (henc : hGet resp.headers "Content-Encoding".data = "gzip".data)
    (hgz : t.gunzip resp.body = some d) :
    (relayUpstream t w0 resp).1.body = RespBody.data d := by
  simp [relayUpstream, henc, hgz]

theorem relayUpstream_gzip_att (t : Transport) (w0 : WriterMap)
    (resp : UpstreamResponse)
    (henc : hGet resp.headers "Content-Encoding".data = "gzip".data) :
    (relayUpstream t w0 resp).2 = true := by
  simp [relayUpstream, henc]

theorem relayUpstream_status (t : Transport) (w0 : WriterMap)
    (resp : UpstreamResponse) :
    (relayUpstream t w0 resp).1.status = resp.status := rfl

theorem relayUpstream_gzip_CL (t : Transport) (w0 : WriterMap)
    (resp : UpstreamResponse) (d : List Nat)
    (henc : hGet resp.headers "Content-Encoding".data = "gzip".data)
    (hgz : t.gunzip resp.body = some d) :
    wGet (relayUpstream t w0 resp).1.headers "Content-Length".data
      = natToStr d.length := by
  simp [relayUpstream, henc, hgz]
  exact wGet_wSet_pos _ _ _ _ (strEqFold_refl _)

theorem relayUpstream_gzip_noCE (t : Transport) (w0 : WriterMap)
    (resp : UpstreamResponse) (d : List Nat)
    (henc : hGet resp.headers "Content-Encoding".data = "gzip".data)
    (hgz : t.gunzip resp.body = some d)
    (h0 : noWKey w0 "Content-Encoding".data) :
    noWKey (relayUpstream t w0 resp).1.headers "Content-Encoding".data := by
  simp only [relayUpstream, henc, hgz]
  simp only [beq_self_eq_true, if_true, Bool.true_or]
  refine noWKey_wSet (by decide) (noWKey_wSet (by decide) (noWKey_wSet (by decide)
    (noWKey_wSet (by decide) (noWKey_wSet (by decide) ?_))))
  refine copyResp_noWKey resp.headers "gzip".data "Content-Encoding".data ?_ h0
  intro p hp
  by_cases hpk : strEqFold p.1 "Content-Encoding".data = true
  · left
    unfold skippedKey
    rw [strEqFold_true_iff,
      (by decide : goToLower "Content-Encoding".data = "content-encoding".data)] at hpk
    rw [hpk]
    simp
  · right
    cases hek : strEqFold p.1 "Content-Encoding".data with
    | false => rfl
    | true => exact absurd hek hpk

/-- C2: a gzip-declared upstream response with a valid gzip body is
relayed decompressed: the proxied body is the decompressed bytes, the
outbound headers contain no Content-Encoding key, and the Content-Length
header equals the decompressed byte count. -/
theorem c2_gzip_success (t : Transport) (c : InboundRequest)
    (resp : UpstreamResponse) (d : List Nat)
    (h1 : (c.method == "OPTIONS".data) = false)
    (h2 : validMethod c.method = true)
    (hd : ∀ r, t.doRequest r = UpstreamResult.success resp)
    (henc : hGet resp.headers "Content-Encoding".data = "gzip".data)
    (hgz : t.gunzip resp.body = some d) :
    (handleRequest t c).response.body = RespBody.data d ∧
    noWKey (handleRequest t c).response.headers "Content-Encoding".data ∧
    wGet (handleRequest t c).response.headers "Content-Length".data
      = natToStr d.length ∧
    (handleRequest t c).response.status = resp.status ∧
    (handleRequest t c).gunzipAttempted = true := by
  rw [handleRequest_success t c resp h1 h2 hd]
  exact ⟨relayUpstream_gzip_body t corsBase resp d henc hgz,
    relayUpstream_gzip_noCE t corsBase resp d henc hgz (by decide),
    relayUpstream_gzip_CL t corsBase resp d henc hgz,
    relayUpstream_status t corsBase resp,
    relayUpstream_gzip_att t corsBase resp henc⟩

theorem c2_gzip_success_witness :
    hGet respGzip.headers "Content-Encoding".data = "gzip".data ∧
    tGzip.gunzip respGzip.body = some [104, 105] ∧
    (handleRequest tGzip cGet).response.body = RespBody.data [104, 105] ∧
    noWKey (handleRequest tGzip cGet).response.headers "Content-Encoding".data ∧
    wGet (handleRequest tGzip cGet).response.headers "Content-Length".data
      = natToStr 2 := by
  refine ⟨by decide, rfl, ?_, ?_, ?_⟩
  · exact (c2_gzip_success tGzip cGet respGzip [104, 105]
      (by decide) (by decide) (fun r => rfl) (by decide) rfl).1
  · exact (c2_gzip_success tGzip cGet respGzip [104, 105]
      (by decide) (by decide) (fun r => rfl) (by decide) rfl).2.1
  · exact (c2_gzip_success tGzip cGet respGzip [104, 105]
      (by decide) (by decide) (fun r => rfl) (by decide) rfl).2.2.1

/-! Behaviour of the response relay when the declared encoding is not
exactly `gzip`. -/

theorem relayUpstream_plain_body (t : Transport) (w0 : WriterMap)
    (resp : UpstreamResponse) (e : Str)
    (henc : hGet resp.headers "Content-Encoding".data = e)
    (hne : (e == "gzip".data) = false) :
    (relayUpstream t w0 resp).1.body = RespBody.data resp.body := by
  simp [relayUpstream, henc, hne]

theorem relayUpstream_plain_att (t : Transport) (w0 : WriterMap)
    (resp : UpstreamResponse) (e : Str)
    (henc : hGet resp.headers "Content-Encoding".data = e)
    (hne : (e == "gzip".data) = false) :
    (relayUpstream t w0 resp).2 = false := by
  simp [relayUpstream, henc, hne]

theorem wGet_ite (c : Prop) [Decidable c] (a b : WriterMap) (k : Str) :
    wGet (if c then a else b) k = if c then wGet a k else wGet b k := by
  by_cases h : c
  · rw [if_pos h, if_pos h]
  · rw [if_neg h, if_neg h]

theorem wGet_corsChain (w1 : WriterMap) (ct key : Str)
    (hk1 : strEqFold "Content-Type".data key = false)
    (hk2 : strEqFold "Access-Control-Allow-Origin".data key = false)
    (hk3 : strEqFold "Access-Control-Allow-Methods".data key = false)
    (hk4 : strEqFold "Access-Control-Allow-Headers".data key = false) :
    wGet (wSet (wSet (wSet (wSet w1 "Content-Type".data ct)
        "Access-Control-Allow-Origin".data "*".data)
        "Access-Control-Allow-Methods".data "GET, POST, PUT, DELETE, OPTIONS".data)
        "Access-Control-Allow-Headers".data "Content-Type, Authorization".data) key
      = wGet w1 key := by
  rw [wGet_wSet_neg _ _ _ _ hk4, wGet_wSet_neg _ _ _ _ hk3,
    wGet_wSet_neg _ _ _ _ hk2, wGet_wSet_neg _ _ _ _ hk1]

theorem relayUpstream_plain_wGet_other (t : Transport) (w0 : WriterMap)
    (resp : UpstreamResponse) (e key : Str)
    (henc : hGet resp.headers "Content-Encoding".data = e)
    (hne : (e == "gzip".data) = false)
    (hk1 : strEqFold "Content-Type".data key = false)
    (hk2 : strEqFold "Access-Control-Allow-Origin".data key = false)
    (hk3 : strEqFold "Access-Control-Allow-Methods".data key = false)
    (hk4 : strEqFold "Access-Control-Allow-Headers".data key = false)
    (hk5 : strEqFold "Content-Length".data key = false) :
    wGet (relayUpstream t w0 resp).1.headers key =
      wGet (copyRespHeaders w0 resp.headers e) key := by
  simp only [relayUpstream, henc, hne, Bool.false_or, Bool.false_eq_true, if_false]
  rw [wGet_ite, wGet_wSet_neg _ _ _ _ hk5, ite_self,
    wGet_corsChain _ _ key hk1 hk2 hk3 hk4]

theorem relayUpstream_plain_wGet_CL (t : Transport) (w0 : WriterMap)
    (resp : UpstreamResponse) (e cl : Str)
    (henc : hGet resp.headers "Content-Encoding".data = e)
    (hne : (e == "gzip".data) = false)
    (hw1 : wGet (copyRespHeaders w0 resp.headers e) "Content-Length".data = cl)
    (hclne : (cl == ([] : Str)) = false) :
    wGet (relayUpstream t w0 resp).1.headers "Content-Length".data = cl := by
  simp only [relayUpstream, henc, hne, Bool.false_or, Bool.false_eq_true, if_false]
  rw [wGet_ite, wGet_wSet_pos _ _ _ _ (strEqFold_refl "Content-Length".data),
    wGet_corsChain _ _ "Content-Length".data (by decide) (by decide) (by decide) (by decide),
    hw1, hclne]
  simp

/-- C10: decompression is attempted only when the upstream declares
exactly `gzip`: for any other non-empty declared encoding, the body is
relayed verbatim and the Content-Encoding and Content-Length headers are
passed through unchanged. -/
theorem c10_non_gzip_passthrough (t : Transport) (c : InboundRequest)
    (resp : UpstreamResponse) (e cl k0 k1 : Str)
    (h1 : (c.method == "OPTIONS".data) = false)
    (h2 : validMethod c.method = true)
    (hd : ∀ r, t.doRequest r = UpstreamResult.success resp)
    (hnd : (resp.headers.map (fun p => goToLower p.1)).Nodup)
    (hfindCE : resp.headers.find? (fun p => strEqFold p.1 "Content-Encoding".data)
      = some (k0, [e]))
    (hce1 : ¬ e = "gzip".data) (hce2 : ¬ e = [])
    (hfindCL : resp.headers.find? (fun p => strEqFold p.1 "Content-Length".data)
      = some (k1, [cl]))
    (hcl : ¬ cl = []) :
    (handleRequest t c).response.body = RespBody.data resp.body ∧
    (handleRequest t c).gunzipAttempted = false ∧
    wGet (handleRequest t c).response.headers "Content-Encoding".data = e ∧
    wGet (handleRequest t c).response.headers "Content-Length".data = cl := by
  have henc : hGet resp.headers "Content-Encoding".data = e := by
    simp [hGet, hfindCE]
  have hne : (e == "gzip".data) = false := by simp [hce1]
  have hskipCE : skippedKey e k0 = false := by
    unfold skippedKey
    rw [hne]
    simp
  have hskipCL : skippedKey e k1 = false := by
    unfold skippedKey
    rw [hne]
    simp
  have hwCE : wGet (copyRespHeaders corsBase resp.headers e) "Content-Encoding".data = e :=
    copyResp_wGet_found resp.headers corsBase e "Content-Encoding".data k0 e
      hnd hfindCE hskipCE (by simp [hce2])
  have hwCL : wGet (copyRespHeaders corsBase resp.headers e) "Content-Length".data = cl :=
    copyResp_wGet_found resp.headers corsBase e "Content-Length".data k1 cl
      hnd hfindCL hskipCL (by simp [hcl])
  rw [handleRequest_success t c resp h1 h2 hd]
  refine ⟨relayUpstream_plain_body t corsBase resp e henc hne,
    relayUpstream_plain_att t corsBase resp e henc hne, ?_, ?_⟩
  · rw [relayUpstream_plain_wGet_other t corsBase resp e "Content-Encoding".data
      henc hne (by decide) (by decide) (by decide) (by decide) (by decide)]
    exact hwCE
  · exact relayUpstream_plain_wGet_CL t corsBase resp e cl henc hne hwCL (by simp [hcl])

theorem c10_non_gzip_passthrough_witness :
    (respDeflate.headers.map (fun p => goToLower p.1)).Nodup ∧
    respDeflate.headers.find? (fun p => strEqFold p.1 "Content-Encoding".data)
      = some ("Content-Encoding".data, ["deflate".data]) ∧
    (handleRequest tDeflate cGet).response.body = RespBody.data [1, 2, 3] ∧
    (handleRequest tDeflate cGet).gunzipAttempted = false ∧
    wGet (handleRequest tDeflate cGet).response.headers "Content-Encoding".data
      = "deflate".data ∧
    wGet (handleRequest tDeflate cGet).response.headers "Content-Length".data
      = "3".data := by
  have h := c10_non_gzip_passthrough tDeflate cGet respDeflate
    "deflate".data "3".data "Content-Encoding".data "Content-Length".data
    (by decide) (by decide) (fun r => rfl) (by decide) (by decide)
    (by decide) (by decide) (by decide) (by decide)
  exact ⟨by decide, by decide, h.1, h.2.1, h.2.2.1, h.2.2.2⟩

/-- C1: behaviour at the failing input.  For an upstream response whose
Content-Encoding header says `gzip` but whose body is not a valid gzip
stream, the request does not fail — the status is passed through and the
body is relayed as the original compressed bytes — but, contrary to the
claim, the outbound response does NOT retain the Content-Encoding header:
the copy loop at main.go lines 240 and 244 drops both Content-Encoding and
Content-Length whenever the upstream declared gzip, even though
decompression never occurred. -/
theorem c1_gzip_failure_drops_encoding :
    hGet respBadGzip.headers "Content-Encoding".data = "gzip".data ∧
    tBadGzip.gunzip respBadGzip.body = none ∧
    (handleRequest tBadGzip cGet).response.status = 200 ∧
    (handleRequest tBadGzip cGet).response.body = RespBody.data [31, 139, 8] ∧
    (handleRequest tBadGzip cGet).gunzipAttempted = true ∧
    noWKey (handleRequest tBadGzip cGet).response.headers "Content-Encoding".data := by
  decide

/-- C8: the outbound upstream request never carries the host, connection or
keep-alive headers; an inbound accept-encoding header is rewritten to the
single fixed value `gzip, deflate`; and when no user-agent header is
present after copying, one identifying the proxy is synthesized (the
outbound user-agent value is never empty). -/
theorem c8_request_header_filtering (t : Transport) (c : InboundRequest)
    (h1 : (c.method == "OPTIONS".data) = false)
    (h2 : validMethod c.method = true)
    (hAE : ∃ p, p ∈ c.headers ∧ strEqFold p.1 "Accept-Encoding".data = true)
    (hUA : ∀ p ∈ c.headers, strEqFold p.1 "User-Agent".data = false) :
    (handleRequest t c).upstreamCalls = [mkOutboundRequest c] ∧
    (mkOutboundRequest c).headers = buildOutboundHeaders c.headers ∧
    (∀ x ∈ buildOutboundHeaders c.headers,
      ¬ goToLower x.1 = "host".data ∧ ¬ goToLower x.1 = "connection".data ∧
      ¬ goToLower x.1 = "keep-alive".data) ∧
    keyFilter (buildOutboundHeaders c.headers) "Accept-Encoding".data
      = [("Accept-Encoding".data, ["gzip, deflate".data])] ∧
    hGet (buildOutboundHeaders c.headers) "User-Agent".data
      = "Binance-Proxy/1.0".data ∧
    (∀ inH, ¬ hGet (buildOutboundHeaders inH) "User-Agent".data = []) :=
  ⟨handleRequest_calls t c h1 h2, rfl, buildOutbound_goodKeys c.headers,
    buildOutbound_AE c.headers hAE, buildOutbound_UA_absent c.headers hUA,
    buildOutbound_UA_nonempty⟩

theorem c8_request_header_filtering_witness :
    (∃ p, p ∈ hdrsIn ∧ strEqFold p.1 "Accept-Encoding".data = true) ∧
    (∀ p ∈ hdrsIn, strEqFold p.1 "User-Agent".data = false) ∧
    keyFilter (buildOutboundHeaders hdrsIn) "Accept-Encoding".data
      = [("Accept-Encoding".data, ["gzip, deflate".data])] ∧
    hGet (buildOutboundHeaders hdrsIn) "User-Agent".data
      = "Binance-Proxy/1.0".data ∧
    (∀ x ∈ buildOutboundHeaders hdrsIn,
      ¬ goToLower x.1 = "host".data ∧ ¬ goToLower x.1 = "connection".data ∧
      ¬ goToLower x.1 = "keep-alive".data) := by
  have h := c8_request_header_filtering tSuccessEmpty cHeaders
    (by decide) (by decide) (by decide) (by decide)
  exact ⟨by decide, by decide, h.2.2.2.1, h.2.2.2.2.1, h.2.2.1⟩

end BinanceProxy
